import Mathlib

/-!
Verification of the StellarTerm ticker-generation pipeline
(`src/functions/ticker.js`) against its natural-language specification.

Modelling conventions (shallow embedding):
* JavaScript numbers are modelled as exact rationals `ℚ`.  The single
  non-finite value that actually arises in this code base is `NaN`
  (from lodash `_.mean` applied to an empty array), so a JS numeric
  result is modelled by `JsNum`, either `nan` or a finite rational.
* `null`-or-number source results are `Option ℚ` (`none` = JS `null`).
* lodash `_.round(x, p)` uses `Math.round(x·10^p)/10^p`, and
  `Math.round` is floor(x + 1/2); this is `jsRound`.
* Fallible / throwing code is modelled with `Except`; promise
  rejection is `Except.error`.
-/

/-- JavaScript numeric value as produced by the aggregation code:
either the IEEE `NaN` or a finite number (modelled exactly as `ℚ`). -/
inductive JsNum where
  | nan : JsNum
  | num (q : ℚ) : JsNum
deriving DecidableEq

/-- lodash `_.round(x, p)`: `Math.round(x * 10^p) / 10^p` with
`Math.round t = ⌊t + 1/2⌋` (round half toward +∞). -/
def jsRound (p : ℕ) (x : ℚ) : ℚ := ((⌊x * 10 ^ p + 1 / 2⌋ : ℤ) : ℚ) / 10 ^ p

/-- Lifting of `jsRound` to `JsNum`: `_.round(NaN, p)` is `NaN`. -/
def jsnRound (p : ℕ) : JsNum → JsNum
  | JsNum.nan => JsNum.nan
  | JsNum.num q => JsNum.num (jsRound p q)

/-- JS multiplication on `JsNum`: `NaN` is absorbing. -/
def jsnMul : JsNum → JsNum → JsNum
  | JsNum.num a, JsNum.num b => JsNum.num (a * b)
  | _, _ => JsNum.nan

/-- lodash `_.mean`: sum divided by length; on an empty array the
result is `NaN` (0/0 in JS). -/
def jsMean : List ℚ → JsNum
  | [] => JsNum.nan
  | a :: l => JsNum.num ((a :: l).sum / (a :: l).length)

/-- Spec-side definition, written from the claims' words: "the mean of
exactly the non-null values" — the plain arithmetic mean of a list.
Used only to compare the source's reconciliation against the spec. -/
def specMean (l : List ℚ) : ℚ := l.sum / l.length

/-- Model of the `getBtcPrice` reconciliation step (ticker.js lines 459-463): the
four source fetches each resolve to a price or to `null` on failure;
the result is `_.round(_.mean(_.filter(allPrices, p => p !== null)), 2)`.
The argument list holds the source outcomes. -/
def getBtcPrice (allPrices : List (Option ℚ)) : JsNum :=
  jsnRound 2 (jsMean (allPrices.filterMap id))

/-- Model of the `getLumenPrice` reconciliation step (ticker.js lines 493-497):
`_.round(_.mean(_.filter(allPrices, p => p !== null)), 8)`. -/
def getLumenPrice (allPrices : List (Option ℚ)) : JsNum :=
  jsnRound 8 (jsMean (allPrices.filterMap id))

/-- Result record of `getExternalPrices` (ticker.js lines 402-415). -/
structure ExternalPrices where
  USD_BTC : JsNum
  BTC_XLM : JsNum
  USD_XLM : JsNum
deriving DecidableEq

/-- Model of `getExternalPrices` (ticker.js lines 402-415):
`USD_XLM = _.round(externalData[0] * externalData[1], 6)`. -/
def getExternalPrices (btcSrcs xlmSrcs : List (Option ℚ)) : ExternalPrices :=
  let b := getBtcPrice btcSrcs
  let x := getLumenPrice xlmSrcs
  { USD_BTC := b, BTC_XLM := x, USD_XLM := jsnRound 6 (jsnMul b x) }

/-- Helper: a rounded mean over a non-empty filtered source list equals
the rounded `specMean`. -/
theorem jsnRound_jsMean_of_ne_nil (p : ℕ) (l : List ℚ) (h : l ≠ []) :
    jsnRound p (jsMean l) = JsNum.num (jsRound p (specMean l)) := by
  rcases l with _ | ⟨a, t⟩
  · exact absurd rfl h
  · rfl

/-- Helper: the claim's concrete end-to-end scenario evaluates to
`USD_XLM = 0.0101`. -/
theorem usd_xlm_example_value :
    (getExternalPrices [some 100, some 102, none]
        [some 0.00011, some 0.00009, some 0.0001]).USD_XLM = JsNum.num 0.0101 := by
  rw [getExternalPrices]
  show jsnRound 6 (jsnMul (jsnRound 2 (jsMean [100, 102]))
    (jsnRound 8 (jsMean [0.00011, 0.00009, 0.0001]))) = JsNum.num 0.0101
  rw [jsMean, jsMean]
  show jsnRound 6 (jsnMul (JsNum.num (jsRound 2 (([(100:ℚ), 102]).sum / 2)))
    (JsNum.num (jsRound 8 (([(0.00011:ℚ), 0.00009, 0.0001]).sum / 3)))) = JsNum.num 0.0101
  norm_num [jsRound, jsnMul, jsnRound]

/-- C3 counterexample: when every source of a group resolves to `null`,
the reconciled value is `NaN` (lodash mean of an empty array), which is
then propagated silently into `USD_XLM` — not surfaced as a failure of
any kind.  This falsifies the claim that an all-null group is "an
explicit failure (surfaced as such), never silently coerced to 0 or
NaN". -/
theorem C3_counterexample_all_null_gives_NaN :
    getBtcPrice [none, none, none, none] = JsNum.nan ∧
    (getExternalPrices [none, none, none, none]
        [some 0.00011, some 0.00009, some 0.0001]).USD_XLM = JsNum.nan := by
  exact ⟨rfl, rfl⟩

/-- C3 (amended): when some sources are non-null the reconciled value is
the rounded arithmetic mean of exactly the non-null values (2 decimals
for the BTC group, 8 for the XLM group; `[10, null, 12]` yields `11`);
when every source is null, the lodash mean of the empty list is `NaN`,
which flows on silently instead of being an explicit failure. -/
theorem C3_mean_reconciliation :
    (∀ srcs : List (Option ℚ), srcs.filterMap id = [] →
        getBtcPrice srcs = JsNum.nan ∧ getLumenPrice srcs = JsNum.nan) ∧
    (∀ srcs : List (Option ℚ), srcs.filterMap id ≠ [] →
        getBtcPrice srcs = JsNum.num (jsRound 2 (specMean (srcs.filterMap id))) ∧
        getLumenPrice srcs = JsNum.num (jsRound 8 (specMean (srcs.filterMap id)))) ∧
    getBtcPrice [some 10, none, some 12] = JsNum.num 11 := by
  refine ⟨fun srcs h => ?_, fun srcs h => ?_, ?_⟩
  · rw [getBtcPrice, getLumenPrice, h]
    exact ⟨rfl, rfl⟩
  · exact ⟨jsnRound_jsMean_of_ne_nil 2 _ h, jsnRound_jsMean_of_ne_nil 8 _ h⟩
  · show jsnRound 2 (jsMean [10, 12]) = JsNum.num 11
    rw [jsMean]
    show JsNum.num (jsRound 2 (([(10 : ℚ), 12]).sum / 2)) = JsNum.num 11
    norm_num [jsRound]

/-- C3 witness: the general non-null branch of `C3_mean_reconciliation`
instantiated at the concrete source list `[10, null, 12]`. -/
theorem C3_mean_reconciliation_witness :
    getBtcPrice [some 10, none, some 12] =
      JsNum.num (jsRound 2 (specMean ([some (10:ℚ), none, some 12].filterMap id))) := by
  exact (C3_mean_reconciliation.2.1 [some 10, none, some 12] (by simp)).1

/-- C7 counterexample: the reconciled BTC/USD price is rounded to 2
decimals, not 3 (sources 100.006 and 100.007 give 100.01, while the
3-decimal rounding of their mean is 100.007), and the claim's concrete
scenario yields `USD_XLM = 0.0101`, not `0.000101`. -/
theorem C7_counterexample_rounding :
    getBtcPrice [some 100.006, some 100.007, none, none] = JsNum.num 100.01 ∧
    jsRound 3 (specMean [100.006, 100.007]) = 100.007 ∧
    (100.01 : ℚ) ≠ 100.007 ∧
    (getExternalPrices [some 100, some 102, none]
        [some 0.00011, some 0.00009, some 0.0001]).USD_XLM = JsNum.num 0.0101 ∧
    (0.0101 : ℚ) ≠ 0.000101 := by
  refine ⟨?_, ?_, by norm_num, usd_xlm_example_value, by norm_num⟩
  · show jsnRound 2 (jsMean [100.006, 100.007]) = JsNum.num 100.01
    rw [jsMean]
    show JsNum.num (jsRound 2 (([(100.006 : ℚ), 100.007]).sum / 2)) = JsNum.num 100.01
    norm_num [jsRound]
  · show jsRound 3 (([(100.006 : ℚ), 100.007]).sum / 2) = 100.007
    norm_num [jsRound]

/-- C7 (amended): the reconciled BTC/USD price is the mean of the
non-null sources rounded to 2 decimals, the XLM/BTC rate is the mean of
its non-null sources rounded to 8 decimals, and
`USD_XLM = round(mean_btc · mean_rate, 6)`; with reference sources
{100, 102, null} and rate sources {0.00011, 0.00009, 0.0001} the
reconciled USD_XLM is 0.0101. -/
theorem C7_external_price_reconciliation :
    (∀ btcSrcs xlmSrcs : List (Option ℚ),
        btcSrcs.filterMap id ≠ [] → xlmSrcs.filterMap id ≠ [] →
        getExternalPrices btcSrcs xlmSrcs =
          { USD_BTC := JsNum.num (jsRound 2 (specMean (btcSrcs.filterMap id))),
            BTC_XLM := JsNum.num (jsRound 8 (specMean (xlmSrcs.filterMap id))),
            USD_XLM := JsNum.num (jsRound 6 (jsRound 2 (specMean (btcSrcs.filterMap id)) *
              jsRound 8 (specMean (xlmSrcs.filterMap id)))) }) ∧
    (getExternalPrices [some 100, some 102, none]
        [some 0.00011, some 0.00009, some 0.0001]).USD_XLM = JsNum.num 0.0101 := by
  constructor
  · intro btcSrcs xlmSrcs hb hx
    have h1 := jsnRound_jsMean_of_ne_nil 2 _ hb
    have h2 := jsnRound_jsMean_of_ne_nil 8 _ hx
    rw [getExternalPrices]
    show ExternalPrices.mk (getBtcPrice btcSrcs) (getLumenPrice xlmSrcs)
      (jsnRound 6 (jsnMul (getBtcPrice btcSrcs) (getLumenPrice xlmSrcs))) = _
    rw [getBtcPrice, getLumenPrice, h1, h2]
    rfl
  · exact usd_xlm_example_value

/-- C7 witness: the general reconciliation theorem instantiated at the
claim's concrete source outcome lists. -/
theorem C7_external_price_reconciliation_witness :
    getExternalPrices [some 100, some 102, none] [some 0.00011, some 0.00009, some 0.0001] =
      { USD_BTC := JsNum.num (jsRound 2 (specMean [100, 102])),
        BTC_XLM := JsNum.num (jsRound 8 (specMean [0.00011, 0.00009, 0.0001])),
        USD_XLM := JsNum.num (jsRound 6 (jsRound 2 (specMean [100, 102]) *
          jsRound 8 (specMean [0.00011, 0.00009, 0.0001]))) } := by
  have h := C7_external_price_reconciliation.1 [some 100, some 102, none]
    [some 0.00011, some 0.00009, some 0.0001] (by simp) (by simp)
  simpa using h

/-!
`medianOf3` (ticker.js lines 21-23) is `[a, b, c].sort()[1]`.
JavaScript `Array.prototype.sort` with no comparator sorts by comparing
the `ToString` images of the elements code-unit-lexicographically.  For
the doubles that occur here, `ToString` prints the exact (terminating)
decimal expansion, and `ToString` is injective on JS numbers.

The model: `strCodes q` is the list of UTF-16 code units of the decimal
expansion of `q` (sign `-` 45, digits 48-57, dot 46; rationals whose
expansion does not terminate within 100 digits cannot arise from a JS
double and get an arbitrary marker spelling `~num/den`).  To keep the
order total and injective without needing a decimal-injectivity proof, the
key appends a 0 code (never produced by `strCodes`) followed by an
injective encoding of the rational itself: for genuine JS inputs two
distinct numbers always differ already in `strCodes`, so the tie-break
suffix is unreachable and the model agrees with JS.
-/

/-- Little-endian decimal digits of `n` (with `fuel ≥ n` fuel). -/
def digitsRev (fuel n : ℕ) : List ℕ :=
  match fuel with
  | 0 => []
  | f + 1 => if n = 0 then [] else (n % 10) :: digitsRev f (n / 10)

/-- Decimal digit code units of a natural number, most significant first. -/
def digitCodes (n : ℕ) : List ℕ :=
  if n = 0 then [48] else ((digitsRev n n).reverse).map (· + 48)

/-- Code units of the fractional part: `frac` padded with leading zeros
to exactly `k` digits. -/
def fracCodes (k frac : ℕ) : List ℕ :=
  (((digitsRev frac frac) ++ List.replicate (k - (digitsRev frac frac).length) 0).reverse).map
    (· + 48)

/-- Smallest `k` (searched up to 100) with `den ∣ 10^k`, i.e. the
number of digits of the terminating decimal expansion. -/
def findK (den : ℕ) : ℕ → ℕ → Option ℕ
  | 0, _ => none
  | fuel + 1, k => if 10 ^ k % den = 0 then some k else findK den fuel (k + 1)

/-- Exponent of the terminating decimal expansion of `q`, if any
(within 100 digits; every JS double terminates well within that). -/
def termExp (q : ℚ) : Option ℕ := findK q.den 101 0

/-- Code units of the decimal spelling of a non-negative rational. -/
def strCodesNN (q : ℚ) : List ℕ :=
  match termExp q with
  | some k =>
      let m : ℕ := q.num.toNat * 10 ^ k / q.den
      if k = 0 then digitCodes m
      else digitCodes (m / 10 ^ k) ++ 46 :: fracCodes k (m % 10 ^ k)
  | none => 126 :: (digitCodes q.num.natAbs ++ 47 :: digitCodes q.den)

/-- Code units of the JS `ToString` image of a rational. -/
def strCodes (q : ℚ) : List ℕ :=
  if q < 0 then 45 :: strCodesNN (-q) else strCodesNN q

/-- Injective tie-break encoding of a rational (sign flag, |num|, den). -/
def encQ (q : ℚ) : List ℕ := [if q.num < 0 then 0 else 1, q.num.natAbs, q.den]

/-- Sort key of a JS number: decimal-spelling code units, then a 0
separator (no code unit of `strCodes` is 0), then the injective
tie-break (unreachable for genuine JS doubles). -/
def jsKey (q : ℚ) : List ℕ := strCodes q ++ 0 :: encQ q

/-- Code-unit-lexicographic comparison, exactly the ECMAScript string
less-than used by the default sort comparator. -/
def lexLt : List ℕ → List ℕ → Bool
  | [], [] => false
  | [], _ :: _ => true
  | _ :: _, [] => false
  | a :: as, b :: bs => if a < b then true else if b < a then false else lexLt as bs

/-- The total order JS default sort effectively uses on the modelled
numbers: compare `jsKey` lexicographically. -/
def jsKeyLe (x y : ℚ) : Prop := lexLt (jsKey x) (jsKey y) = true ∨ jsKey x = jsKey y

instance : DecidableRel jsKeyLe := fun x y => by unfold jsKeyLe; infer_instance

/-- Model of `medianOf3` (ticker.js lines 21-23): `[a, b, c].sort()[1]` with the
default (string-comparing) comparator. -/
def medianOf3 (a b c : ℚ) : ℚ := (List.insertionSort jsKeyLe [a, b, c]).getD 1 0

/-- Spec-side definition: the numeric median of three values, written
from the claim's words "the median of the numeric close values". -/
def numericMedian3 (a b c : ℚ) : ℚ := a + b + c - min a (min b c) - max a (max b c)

theorem lexLt_total : ∀ u v : List ℕ, lexLt u v = true ∨ lexLt v u = true ∨ u = v := by
  intro u
  induction u with
  | nil => intro v; cases v <;> simp [lexLt]
  | cons a as ih =>
    intro v
    cases v with
    | nil => simp [lexLt]
    | cons b bs =>
      rcases Nat.lt_trichotomy a b with h | h | h
      · left; simp [lexLt, h]
      · subst h
        rcases ih bs with h' | h' | h'
        · left; simp [lexLt, h']
        · right; left; simp [lexLt, h']
        · right; right; rw [h']
      · right; left; simp [lexLt, h, Nat.not_lt_of_gt h]

theorem lexLt_asymm : ∀ u v : List ℕ, lexLt u v = true → lexLt v u = true → False := by
  intro u
  induction u with
  | nil => intro v h1 h2; cases v <;> simp [lexLt] at h1 h2
  | cons a as ih =>
    intro v h1 h2
    cases v with
    | nil => simp [lexLt] at h1
    | cons b bs =>
      rcases Nat.lt_trichotomy a b with h | h | h
      · simp [lexLt, h, Nat.not_lt_of_gt h] at h2
      · subst h
        simp [lexLt] at h1 h2
        exact ih bs h1 h2
      · simp [lexLt, h, Nat.not_lt_of_gt h] at h1

theorem lexLt_trans :
    ∀ u v w : List ℕ, lexLt u v = true → lexLt v w = true → lexLt u w = true := by
  intro u
  induction u with
  | nil =>
    intro v w h1 h2
    cases v with
    | nil => simp [lexLt] at h1
    | cons b bs => cases w with
      | nil => simp [lexLt] at h2
      | cons c cs => simp [lexLt]
  | cons a as ih =>
    intro v w h1 h2
    cases v with
    | nil => simp [lexLt] at h1
    | cons b bs =>
      cases w with
      | nil => simp [lexLt] at h2
      | cons c cs =>
        rcases Nat.lt_trichotomy a b with hab | hab | hab
        · rcases Nat.lt_trichotomy b c with hbc | hbc | hbc
          · have : a < c := lt_trans hab hbc
            simp [lexLt, this]
          · subst hbc; simp [lexLt, hab]
          · simp [lexLt, hbc, Nat.not_lt_of_gt hbc] at h2
        · subst hab
          rcases Nat.lt_trichotomy a c with hac | hac | hac
          · simp [lexLt, hac]
          · subst hac
            simp [lexLt] at h1 h2 ⊢
            exact ih bs cs h1 h2
          · simp [lexLt, hac, Nat.not_lt_of_gt hac] at h2
        · simp [lexLt, hab, Nat.not_lt_of_gt hab] at h1

theorem digitCodes_ne_zero (n : ℕ) : ∀ c ∈ digitCodes n, c ≠ 0 := by
  intro c hc
  rw [digitCodes] at hc
  split at hc
  · simp at hc; omega
  · simp only [List.mem_map] at hc
    obtain ⟨d, _, hd⟩ := hc
    omega

theorem fracCodes_ne_zero (k frac : ℕ) : ∀ c ∈ fracCodes k frac, c ≠ 0 := by
  intro c hc
  rw [fracCodes] at hc
  simp only [List.mem_map] at hc
  obtain ⟨d, _, hd⟩ := hc
  omega

theorem strCodesNN_ne_zero (q : ℚ) : ∀ c ∈ strCodesNN q, c ≠ 0 := by
  intro c hc
  unfold strCodesNN at hc
  rcases h : termExp q with _ | k <;> rw [h] at hc <;> simp only at hc
  · simp only [List.mem_cons, List.mem_append] at hc
    rcases hc with hc | hc | hc | hc
    · omega
    · exact digitCodes_ne_zero _ c hc
    · omega
    · exact digitCodes_ne_zero _ c hc
  · split at hc
    · exact digitCodes_ne_zero _ c hc
    · simp only [List.mem_append, List.mem_cons] at hc
      rcases hc with hc | hc | hc
      · exact digitCodes_ne_zero _ c hc
      · omega
      · exact fracCodes_ne_zero _ _ c hc

theorem strCodes_ne_zero (q : ℚ) : ∀ c ∈ strCodes q, c ≠ 0 := by
  intro c hc
  rw [strCodes] at hc
  split at hc
  · rcases List.mem_cons.mp hc with hc | hc
    · omega
    · exact strCodesNN_ne_zero _ c hc
  · exact strCodesNN_ne_zero _ c hc

theorem append_zero_cancel :
    ∀ (s t a b : List ℕ), (∀ c ∈ s, c ≠ 0) → (∀ c ∈ t, c ≠ 0) →
      s ++ 0 :: a = t ++ 0 :: b → a = b := by
  intro s
  induction s with
  | nil =>
    intro t a b _ ht h
    cases t with
    | nil => simpa using h
    | cons d t' =>
      simp only [List.nil_append, List.cons_append, List.cons.injEq] at h
      exact absurd h.1.symm (ht d (by simp))
  | cons c s' ih =>
    intro t a b hs ht h
    cases t with
    | nil =>
      simp only [List.nil_append, List.cons_append, List.cons.injEq] at h
      exact absurd h.1 (hs c (by simp))
    | cons d t' =>
      simp only [List.cons_append, List.cons.injEq] at h
      exact ih t' a b (fun x hx => hs x (by simp [hx])) (fun x hx => ht x (by simp [hx])) h.2

theorem encQ_inj {p q : ℚ} (h : encQ p = encQ q) : p = q := by
  rw [encQ, encQ] at h
  simp only [List.cons.injEq] at h
  obtain ⟨h1, h2, h3, -⟩ := h
  have hnum : p.num = q.num := by split_ifs at h1 <;> omega
  exact Rat.ext hnum h3

theorem jsKey_inj {p q : ℚ} (h : jsKey p = jsKey q) : p = q :=
  encQ_inj (append_zero_cancel _ _ _ _ (strCodes_ne_zero p) (strCodes_ne_zero q) h)

instance : IsTotal ℚ jsKeyLe :=
  ⟨fun x y => by
    rcases lexLt_total (jsKey x) (jsKey y) with h | h | h
    · exact Or.inl (Or.inl h)
    · exact Or.inr (Or.inl h)
    · exact Or.inl (Or.inr h)⟩

instance : IsTrans ℚ jsKeyLe :=
  ⟨fun x y z hxy hyz => by
    rcases hxy with h1 | h1 <;> rcases hyz with h2 | h2
    · exact Or.inl (lexLt_trans _ _ _ h1 h2)
    · exact Or.inl (h2 ▸ h1)
    · exact Or.inl (h1 ▸ h2)
    · exact Or.inr (h1.trans h2)⟩

instance : IsAntisymm ℚ jsKeyLe :=
  ⟨fun x y hxy hyx => by
    rcases hxy with h1 | h1
    · rcases hyx with h2 | h2
      · exact (lexLt_asymm _ _ h1 h2).elim
      · exact (jsKey_inj h2).symm
    · exact jsKey_inj h1⟩

/-- Helper: the JS sort result depends only on the multiset of inputs. -/
theorem insertionSort_eq_of_perm {l l' : List ℚ} (h : l.Perm l') :
    List.insertionSort jsKeyLe l = List.insertionSort jsKeyLe l' :=
  List.eq_of_perm_of_sorted
    ((List.perm_insertionSort jsKeyLe l).trans (h.trans (List.perm_insertionSort jsKeyLe l').symm))
    (List.sorted_insertionSort jsKeyLe l) (List.sorted_insertionSort jsKeyLe l')

/-- C8: `medianOf3` is invariant under every permutation of its three
arguments.  This holds even though the sort is the JS default
string-comparing sort: the comparison is a total order and `ToString`
is injective on JS numbers, so the sorted sequence — and hence its
middle element — is determined by the multiset of arguments. -/
theorem C8_medianOf3_permutation_invariant (a b c : ℚ) :
    medianOf3 a b c = medianOf3 a c b ∧ medianOf3 a b c = medianOf3 b a c ∧
    medianOf3 a b c = medianOf3 b c a ∧ medianOf3 a b c = medianOf3 c a b ∧
    medianOf3 a b c = medianOf3 c b a := by
  have p1 : List.Perm [a, b, c] [a, c, b] := List.Perm.cons a (List.Perm.swap c b [])
  have p2 : List.Perm [a, b, c] [b, a, c] := List.Perm.swap b a [c]
  have p3 : List.Perm [a, b, c] [b, c, a] := p2.trans (List.Perm.cons b (List.Perm.swap c a []))
  have p4 : List.Perm [a, b, c] [c, a, b] := p1.trans (List.Perm.swap c a [b])
  have p5 : List.Perm [a, b, c] [c, b, a] := p4.trans (List.Perm.cons c (List.Perm.swap b a []))
  refine ⟨?_, ?_, ?_, ?_, ?_⟩ <;> unfold medianOf3
  · rw [insertionSort_eq_of_perm p1]
  · rw [insertionSort_eq_of_perm p2]
  · rw [insertionSort_eq_of_perm p3]
  · rw [insertionSort_eq_of_perm p4]
  · rw [insertionSort_eq_of_perm p5]

/-- One bucket of the Horizon trade-aggregation response (the fields
phase 3 reads). -/
structure TradeRecord where
  close : ℚ
  base_volume : ℚ
  counter_volume : ℚ
  trade_count : ℕ
deriving DecidableEq

/-- The 24h-change computation of phase 3 (ticker.js lines 242-275),
native-unit side: with more than 6 buckets the "open" reference is
`medianOf3` of the closes of the three oldest buckets
(`records[len-1]`, `records[len-2]`, `records[len-3]`; the window is
ordered newest first), inverted when the native asset is the base leg;
the result is `_.round(100 * (close/open - 1), 2)`.  With 6 or fewer
buckets the change stays `null`. -/
def change24hXLM (records : List TradeRecord) (pairPrice : ℚ) (baseIsNative : Bool) :
    Option ℚ :=
  if records.length > 6 then
    let c1 := (records.getD (records.length - 1) ⟨0, 0, 0, 0⟩).close
    let c2 := (records.getD (records.length - 2) ⟨0, 0, 0, 0⟩).close
    let c3 := (records.getD (records.length - 3) ⟨0, 0, 0, 0⟩).close
    if baseIsNative then
      let openXLM := 1 / medianOf3 c1 c2 c3
      let closeXLM := 1 / pairPrice
      some (jsRound 2 (100 * (closeXLM / openXLM - 1)))
    else
      let openXLM := medianOf3 c1 c2 c3
      let closeXLM := pairPrice
      some (jsRound 2 (100 * (closeXLM / openXLM - 1)))
  else none

/-- A 7-bucket trade-aggregation window (newest first) whose three
oldest closes are 10.2, 11 and 9.5. -/
def recordsC4 : List TradeRecord :=
  [⟨1, 0, 0, 0⟩, ⟨2, 0, 0, 0⟩, ⟨3, 0, 0, 0⟩, ⟨4, 0, 0, 0⟩,
   ⟨10.2, 0, 0, 0⟩, ⟨11, 0, 0, 0⟩, ⟨9.5, 0, 0, 0⟩]

/-- Helper: `[9.5, 11, 10.2].sort()[1]` under the JS default sort is 11,
because the comparator compares the strings "9.5", "11", "10.2" and
"10.2" < "11" < "9.5" code-unit-lexicographically. -/
theorem medianOf3_string_example : medianOf3 9.5 11 10.2 = 11 := by
  have h1 : (9.5 : ℚ).den = 2 := by norm_num
  have h2 : (9.5 : ℚ).num = 19 := by norm_num
  have h3 : (10.2 : ℚ).den = 5 := by norm_num
  have h4 : (10.2 : ℚ).num = 51 := by norm_num
  have h5 : (11 : ℚ).den = 1 := by norm_num
  have h6 : (11 : ℚ).num = 11 := by norm_num
  have h0 : ¬ ((9.5 : ℚ) < 0) := by norm_num
  have h0' : ¬ ((10.2 : ℚ) < 0) := by norm_num
  have h0'' : ¬ ((11 : ℚ) < 0) := by norm_num
  simp [medianOf3, List.insertionSort, List.orderedInsert, jsKeyLe, jsKey, strCodes, strCodesNN,
    termExp, h0, h0', h0'', h1, h2, h3, h4, h5, h6, findK, digitCodes, digitsRev, fracCodes,
    encQ, lexLt]

/-- C4: with at least 7 buckets the code takes `medianOf3` of the three
oldest closes as the open reference — but `medianOf3` is
`[a,b,c].sort()[1]` with the JS default comparator, which compares the
numbers as strings.  On closes 9.5, 11, 10.2 it yields 11 (the
lexicographic middle), not the numeric median 10.2, so the computed
24h change differs from the claimed one; the below-7-buckets null case
does hold. -/
theorem C4_open_reference_not_numeric_median :
    medianOf3 9.5 11 10.2 = 11 ∧
    numericMedian3 9.5 11 10.2 = 10.2 ∧
    ((11 : ℚ) ≠ 10.2) ∧
    change24hXLM recordsC4 10 false = some (jsRound 2 (100 * ((10 : ℚ) / 11 - 1))) ∧
    jsRound 2 (100 * ((10 : ℚ) / 11 - 1)) ≠
      jsRound 2 (100 * ((10 : ℚ) / numericMedian3 9.5 11 10.2 - 1)) ∧
    change24hXLM (recordsC4.take 6) 10 false = none := by
  refine ⟨medianOf3_string_example, ?_, by norm_num, ?_, ?_, ?_⟩
  · rw [numericMedian3]
    norm_num
  · have hmed := medianOf3_string_example
    simp [change24hXLM, recordsC4, List.getD, hmed]
  · rw [numericMedian3]
    norm_num [jsRound]
  · rw [change24hXLM]
    have hlen : (recordsC4.take 6).length = 6 := by rw [recordsC4]; rfl
    rw [hlen]
    norm_num

/-- A resolved body of the quote-API request: `xlmQuote` is
`data.XLM.quote.USD.percent_change_24h` when `data.XLM` is present,
`none` when the response is missing the asset entry; `raw` stands for
the rest of the body (it distinguishes otherwise-identical responses). -/
structure CmcResp where
  xlmQuote : Option ℚ
  raw : ℕ
deriving DecidableEq

/-- Model of `coinmarketcapReqeust` (ticker.js lines 126-146; the misspelling is
the source's).  `responses k` is the body the k-th request resolves to.
While the body is missing `data.XLM` and `retryCount < 10`, the code
waits 1000 ms (`setTimeout`) and retries with `retryCount + 1`;
otherwise it returns the body.  The result is the returned body, the
number of retries performed, and the total delay in milliseconds. -/
def coinmarketcapReqeust (responses : ℕ → CmcResp) (retryCount : ℕ) : CmcResp × ℕ × ℕ :=
  let r := responses retryCount
  if h : r.xlmQuote = none ∧ retryCount < 10 then
    let next := coinmarketcapReqeust responses (retryCount + 1)
    (next.1, next.2.1 + 1, next.2.2 + 1000)
  else (r, 0, 0)
termination_by 10 - retryCount
decreasing_by omega

/-- Helper: when every response is missing the asset entry, starting at
retry count `j` the loop performs the remaining `10 - j` retries and
returns the 11th response. -/
theorem coinmarketcapReqeust_all_missing (responses : ℕ → CmcResp)
    (h : ∀ k, (responses k).xlmQuote = none) :
    ∀ d j, j + d = 10 →
      coinmarketcapReqeust responses j = (responses 10, d, d * 1000) := by
  intro d
  induction d with
  | zero =>
    intro j hj
    have hj10 : j = 10 := by omega
    subst hj10
    rw [coinmarketcapReqeust, dif_neg (fun hcon => absurd hcon.2 (lt_irrefl 10))]
  | succ d ih =>
    intro j hj
    have hlt : j < 10 := by omega
    rw [coinmarketcapReqeust]
    rw [dif_pos ⟨h j, hlt⟩]
    have hnext := ih (j + 1) (by omega)
    rw [hnext]
    show (responses 10, d + 1, d * 1000 + 1000) = (responses 10, d + 1, (d + 1) * 1000)
    have : d * 1000 + 1000 = (d + 1) * 1000 := by ring
    rw [this]

/-- C6: when the quote-API response is missing the expected asset entry
on every attempt, the request is retried exactly 10 times, each retry
preceded by a fixed 1000 ms delay (10000 ms total), and the loop then
returns the last (11th) response instead of retrying further or
aborting. -/
theorem C6_retry_bound (responses : ℕ → CmcResp)
    (h : ∀ k, (responses k).xlmQuote = none) :
    coinmarketcapReqeust responses 0 = (responses 10, 10, 10000) := by
  have := coinmarketcapReqeust_all_missing responses h 10 0 (by omega)
  simpa using this

/-- C6 witness: the retry bound at a concrete response sequence that
never contains the asset entry. -/
theorem C6_retry_bound_witness :
    coinmarketcapReqeust (fun k => ⟨none, k⟩) 0 = (⟨none, 10⟩, 10, 10000) := by
  have h := C6_retry_bound (fun k => (⟨none, k⟩ : CmcResp)) (fun k => rfl)
  simpa using h

/-- The external-price fields of `ticker._meta` after phase 1's
change-enrichment step. -/
structure Phase1Prices where
  USD_XLM : JsNum
  USD_XLM_24hAgo : JsNum
  USD_XLM_change : Option ℚ
deriving DecidableEq

/-- The CMC tail of phase 1 (ticker.js lines 96-123).  After
`getExternalPrices` resolves, the code first sets
`USD_XLM_24hAgo = USD_XLM` ("Just incase CMC is down") and then issues
the quote request.  There is no catch handler on this chain: if the
request rejects, the rejection propagates and phase 1 rejects.  If it
resolves without `data.XLM`, only an error is logged and the fallback
values stand.  If it resolves with a quote, the code back-computes
`USD_XLM_24hAgo = round((1/(1 + pct/100)) * USD_XLM, 6)` and records
`USD_XLM_change = round(pct, 6)`.  (JS would give Infinity for
`pct = -100`; the model's 1/0 = 0 differs only on that unreachable
input.) -/
def phase1Cmc (prices : ExternalPrices) (cmc : Except String CmcResp) :
    Except String Phase1Prices :=
  let withFallback : Phase1Prices := ⟨prices.USD_XLM, prices.USD_XLM, none⟩
  match cmc with
  | Except.error e => Except.error e
  | Except.ok resp =>
    match resp.xlmQuote with
    | none => Except.ok withFallback
    | some pc =>
      Except.ok
        { USD_XLM := prices.USD_XLM,
          USD_XLM_24hAgo := jsnRound 6 (jsnMul (JsNum.num (1 / (1 + pc / 100))) prices.USD_XLM),
          USD_XLM_change := some (jsRound 6 pc) }

/-- The companion status record written to `v1/ticker-state.json`. -/
structure TickerState where
  tickerState : String
  error : Option String
deriving DecidableEq

/-- A file emitted by one run. -/
inductive OutFile where
  | tickerDoc (json : String)
  | stateDoc (state : TickerState)
deriving DecidableEq

/-- Model of `tickerDataGenerator` (ticker.js lines 60-76): the four phases run
strictly in sequence over the shared ticker document (modelled as
explicit state passing); the result is the serialized document, or the
first rejection. -/
def tickerDataGenerator {T : Type} (p1 p2 p3 p4 : T → Except String T)
    (toJson : T → String) (t0 : T) : Except String String :=
  ((((p1 t0).bind p2).bind p3).bind p4).map toJson

/-- Model of `tickerGenerator` (ticker.js lines 25-57): on success the output
holds `v1/ticker.json` and a success status record; on any rejection
the catch branch emits only the status record, with the error passed
through the credential sanitizer (`hideCMCKey`, from
utils/hide-cmc-key, modelled as the parameter `hide`). -/
def tickerGenerator (hide : TickerState → TickerState) (run : Except String String) :
    List (String × OutFile) :=
  match run with
  | Except.ok t =>
      [("v1/ticker.json", OutFile.tickerDoc t),
       ("v1/ticker-state.json", OutFile.stateDoc ⟨"Ticker successfully generated", none⟩)]
  | Except.error e =>
      [("v1/ticker-state.json", OutFile.stateDoc (hide ⟨"Ticker generation failed", some e⟩))]

/-- C9: whenever the phase pipeline rejects, the emitted output is
exactly the one status record reporting the failure — in particular
the `v1/ticker.json` entry is absent, so no partial ticker is ever
published. -/
theorem C9_failure_emits_only_state {T : Type} (hide : TickerState → TickerState)
    (p1 p2 p3 p4 : T → Except String T) (toJson : T → String) (t0 : T) (e : String)
    (h : tickerDataGenerator p1 p2 p3 p4 toJson t0 = Except.error e) :
    tickerGenerator hide (tickerDataGenerator p1 p2 p3 p4 toJson t0) =
      [("v1/ticker-state.json",
        OutFile.stateDoc (hide ⟨"Ticker generation failed", some e⟩))] ∧
    (tickerGenerator hide (tickerDataGenerator p1 p2 p3 p4 toJson t0)).lookup
      "v1/ticker.json" = none := by
  rw [h]
  exact ⟨rfl, rfl⟩

/-- C9 witness: a concrete failing run (phase 1 rejects) emits only the
failure status record and no ticker document. -/
theorem C9_failure_emits_only_state_witness :
    tickerGenerator (fun s => s) (tickerDataGenerator (fun _ : Unit => Except.error "boom")
        (fun u => Except.ok u) (fun u => Except.ok u) (fun u => Except.ok u)
        (fun _ => "ticker") ()) =
      [("v1/ticker-state.json",
        OutFile.stateDoc ⟨"Ticker generation failed", some "boom"⟩)] ∧
    (tickerGenerator (fun s => s) (tickerDataGenerator (fun _ : Unit => Except.error "boom")
        (fun u => Except.ok u) (fun u => Except.ok u) (fun u => Except.ok u)
        (fun _ => "ticker") ())).lookup "v1/ticker.json" = none := by
  have h := C9_failure_emits_only_state (fun s => s) (fun _ : Unit => Except.error "boom")
    (fun u => Except.ok u) (fun u => Except.ok u) (fun u => Except.ok u)
    (fun _ => "ticker") () "boom" rfl
  simpa using h

/-- Concrete `ExternalPrices` record used by the phase-1 scenarios. -/
def basePrices : ExternalPrices :=
  ⟨JsNum.num 100, JsNum.num 0.0001, JsNum.num 0.01⟩

/-- A concrete run in which the quote-API request itself rejects: the
rejection propagates through phase 1 and the pipeline. -/
def cmcDownPipeline : Except String String :=
  tickerDataGenerator
    (fun _ : Phase1Prices => phase1Cmc basePrices (Except.error "ECONNREFUSED"))
    (fun p => Except.ok p) (fun p => Except.ok p) (fun p => Except.ok p)
    (fun _ => "ticker-json") ⟨JsNum.num 0.01, JsNum.num 0.01, none⟩

/-- C2 counterexample: when the quote-API call rejects outright (not
merely a response missing the asset entry), there is no catch handler —
the rejection propagates, the run fails, and no ticker document is
produced.  This falsifies the claim that the pipeline "does not fail"
in this case. -/
theorem C2_counterexample_rejection_fails_pipeline :
    phase1Cmc basePrices (Except.error "ECONNREFUSED") = Except.error "ECONNREFUSED" ∧
    tickerGenerator (fun s => s) cmcDownPipeline =
      [("v1/ticker-state.json",
        OutFile.stateDoc ⟨"Ticker generation failed", some "ECONNREFUSED"⟩)] ∧
    (tickerGenerator (fun s => s) cmcDownPipeline).lookup "v1/ticker.json" = none := by
  exact ⟨rfl, rfl, rfl⟩

/-- C2 (amended): the "fail open" fallback only covers the case where
the quote API responds without the expected asset entry — then
`USD_XLM_24hAgo` stays equal to the current `USD_XLM` (0% change) and
the run proceeds.  If the request itself rejects, the rejection
propagates (no catch handler) and the pipeline run fails. -/
theorem C2_cmc_failure_modes :
    (∀ (prices : ExternalPrices) (resp : CmcResp), resp.xlmQuote = none →
        phase1Cmc prices (Except.ok resp) =
          Except.ok ⟨prices.USD_XLM, prices.USD_XLM, none⟩) ∧
    (∀ (prices : ExternalPrices) (e : String),
        phase1Cmc prices (Except.error e) = Except.error e) := by
  constructor
  · intro prices resp h
    simp [phase1Cmc, h]
  · intro prices e
    rfl

/-- C2 witness: the missing-entry branch at a concrete prices record
and response. -/
theorem C2_cmc_failure_modes_witness :
    phase1Cmc basePrices (Except.ok ⟨none, 0⟩) =
      Except.ok ⟨basePrices.USD_XLM, basePrices.USD_XLM, none⟩ :=
  C2_cmc_failure_modes.1 basePrices ⟨none, 0⟩ rfl

/-- One order-book entry (price and amount are numeric strings in the
Horizon response; phase 3 reads them through `parseFloat`). -/
structure Offer where
  price : ℚ
  amount : ℚ
deriving DecidableEq

/-- The pair metrics derived from the order-book snapshot. -/
structure OrderbookMetrics where
  bid : ℚ
  ask : ℚ
  spread : ℚ
  price : ℚ
  depth10Amount : ℚ
deriving DecidableEq

/-- The order-book part of phase 3's per-pair computation (ticker.js
lines 206-236): `none` when either side is empty (the early return);
otherwise best bid/ask (7 decimals), `spread = round(1 - bid/ask, 4)`,
`price` = rounded midpoint — replaced by `bid` when the spread exceeds
0.4 and the counter leg is native —, and
`depth10Amount = round(min(bidBandSum, askBandSum))` where the bid band
keeps `bid.price / price >= 0.9` and the ask band keeps
`ask.price / price <= 1.1` (`_.sumBy` with an if/else-0 callback). -/
def phase3Orderbook (counterIsNative : Bool) (bids asks : List Offer) :
    Option OrderbookMetrics :=
  match bids, asks with
  | [], _ => none
  | _, [] => none
  | b0 :: _, a0 :: _ =>
    let bid := jsRound 7 b0.price
    let ask := jsRound 7 a0.price
    let spread := jsRound 4 (1 - bid / ask)
    let mid := jsRound 7 ((bid + ask) / 2)
    let price := if spread > 0.4 ∧ counterIsNative then bid else mid
    let sumBid := (bids.map (fun b => if b.price / price ≥ 0.9 then b.amount else 0)).sum
    let sumAsk := (asks.map (fun a => if a.price / price ≤ 1.1 then a.amount else 0)).sum
    some { bid := bid, ask := ask, spread := spread, price := price,
           depth10Amount := jsRound 0 (min sumBid sumAsk) }

/-- Helper: the `_.sumBy` over the bid band with an if/else-0 callback
is the sum over the filtered sublist. -/
theorem band_sum_bid (price : ℚ) (l : List Offer) :
    (l.map (fun b => if b.price / price ≥ 0.9 then b.amount else 0)).sum =
      ((l.filter (fun b => 0.9 ≤ b.price / price)).map Offer.amount).sum := by
  induction l with
  | nil => rfl
  | cons x xs ih =>
    by_cases h : (0.9 : ℚ) ≤ x.price / price <;> simp [List.filter_cons, h, ih]

/-- Helper: the `_.sumBy` over the ask band with an if/else-0 callback
is the sum over the filtered sublist. -/
theorem band_sum_ask (price : ℚ) (l : List Offer) :
    (l.map (fun a => if a.price / price ≤ 1.1 then a.amount else 0)).sum =
      ((l.filter (fun a => a.price / price ≤ 1.1)).map Offer.amount).sum := by
  induction l with
  | nil => rfl
  | cons x xs ih =>
    by_cases h : x.price / price ≤ (1.1 : ℚ) <;> simp [List.filter_cons, h, ih]

/-- C5: for every pair with non-empty bid and ask sides, the published
`depth10Amount` equals `round(min(S_bid, S_ask))`, where `S_bid` sums
the amounts of the bids priced within 10% below the pair price and
`S_ask` sums the amounts of the asks priced within 10% above it. -/
theorem C5_depth10_min_of_band_sums (cn : Bool) (bids asks : List Offer)
    (m : OrderbookMetrics) (h : phase3Orderbook cn bids asks = some m) :
    m.depth10Amount = jsRound 0 (min
      (((bids.filter (fun b => 0.9 ≤ b.price / m.price)).map Offer.amount).sum)
      (((asks.filter (fun a => a.price / m.price ≤ 1.1)).map Offer.amount).sum)) := by
  rcases bids with _ | ⟨b0, brest⟩
  · exact absurd h (by simp [phase3Orderbook])
  rcases asks with _ | ⟨a0, arest⟩
  · exact absurd h (by simp [phase3Orderbook])
  rw [phase3Orderbook] at h
  simp only [Option.some.injEq] at h
  subst h
  rw [band_sum_bid, band_sum_ask]

/-- The concrete order book of the claim's scenario: bid-band sum 500,
ask-band sum 300. -/
def bidsC5 : List Offer := [⟨1, 200⟩, ⟨0.95, 300⟩, ⟨0.5, 999⟩]

/-- Ask side of the concrete order book. -/
def asksC5 : List Offer := [⟨1, 100⟩, ⟨1.05, 200⟩, ⟨2, 888⟩]

/-- Helper: the metrics of the concrete order book. -/
theorem phase3Orderbook_example :
    phase3Orderbook false bidsC5 asksC5 = some ⟨1, 1, 0, 1, 300⟩ := by
  rw [bidsC5, asksC5, phase3Orderbook]
  norm_num [jsRound]

/-- C5 witness: the depth theorem at the concrete book; the bid-band
sum is 500, the ask-band sum is 300, and `depth10Amount = 300`. -/
theorem C5_depth10_min_of_band_sums_witness :
    (⟨1, 1, 0, 1, 300⟩ : OrderbookMetrics).depth10Amount = jsRound 0 (min
      (((bidsC5.filter (fun b => 0.9 ≤ b.price / 1)).map Offer.amount).sum)
      (((asksC5.filter (fun a => a.price / 1 ≤ 1.1)).map Offer.amount).sum)) ∧
    ((bidsC5.filter (fun b => 0.9 ≤ b.price / 1)).map Offer.amount).sum = 500 ∧
    ((asksC5.filter (fun a => a.price / 1 ≤ 1.1)).map Offer.amount).sum = 300 ∧
    jsRound 0 (min (500 : ℚ) 300) = 300 := by
  refine ⟨?_, ?_, ?_, by norm_num [jsRound]⟩
  · exact C5_depth10_min_of_band_sums false bidsC5 asksC5 ⟨1, 1, 0, 1, 300⟩
      phase3Orderbook_example
  · rw [bidsC5]; norm_num
  · rw [asksC5]; norm_num

/-- An asset leg of a directory pair (`baseBuying` / `counterSelling`). -/
structure AssetLeg where
  code : String
  issuer : Option String
deriving DecidableEq

/-- An entry of `ticker.assets` as far as the phase-3 lookup reads it. -/
structure TAsset where
  code : String
  issuer : Option String
deriving DecidableEq

/-- A directory trading pair. -/
structure TPair where
  baseBuying : AssetLeg
  counterSelling : AssetLeg
deriving DecidableEq

/-- The synchronous head of phase 3's per-pair callback (ticker.js
lines 187-204).  When a leg is native (`StellarSdk.Asset.isNative`:
code "XLM" and no issuer), the code looks the other leg up in
`ticker.assets` with `_.find` and immediately assigns
`asset.topTradePairSlug` — with no null guard, so a failed lookup makes
the callback throw a `TypeError` (modelled as `Except.error`); when
neither leg is native no lookup happens and the pair is processed
without an asset. -/
def resolveAsset (assets : List TAsset) (pair : TPair) : Except String (Option TAsset) :=
  if pair.baseBuying.code == "XLM" && pair.baseBuying.issuer == none then
    match assets.find? (fun a => a.code == pair.counterSelling.code &&
        a.issuer == pair.counterSelling.issuer) with
    | none => Except.error "TypeError: Cannot set property of undefined"
    | some a => Except.ok (some a)
  else if pair.counterSelling.code == "XLM" && pair.counterSelling.issuer == none then
    match assets.find? (fun a => a.code == pair.baseBuying.code &&
        a.issuer == pair.baseBuying.issuer) with
    | none => Except.error "TypeError: Cannot set property of undefined"
    | some a => Except.ok (some a)
  else Except.ok none

/-- The per-pair callbacks of phase 3 run synchronously when
`Promise.all(_.map(ticker.pairs, ...))` builds its array; a throw in
any callback rejects the whole phase. -/
def phase3Resolve (assets : List TAsset) : List TPair → Except String Unit
  | [] => Except.ok ()
  | p :: rest =>
    match resolveAsset assets p with
    | Except.error e => Except.error e
    | Except.ok _ => phase3Resolve assets rest

/-- Helper: if some pair's resolution throws, the whole phase-3 batch
rejects. -/
theorem phase3Resolve_error_of_mem (assets : List TAsset) (pairs : List TPair)
    (p : TPair) (hp : p ∈ pairs) (e : String)
    (h : resolveAsset assets p = Except.error e) :
    ∃ e', phase3Resolve assets pairs = Except.error e' := by
  induction pairs with
  | nil => cases hp
  | cons q rest ih =>
    rcases List.mem_cons.mp hp with rfl | hmem
    · exact ⟨e, by rw [phase3Resolve, h]⟩
    · rcases hq : resolveAsset assets q with e'' | a
      · exact ⟨e'', by rw [phase3Resolve, hq]⟩
      · obtain ⟨e', he'⟩ := ih hmem
        exact ⟨e', by rw [phase3Resolve, hq, he']⟩

/-- Helper: a native base leg with a missing counter asset throws. -/
theorem resolveAsset_error_base_native (assets : List TAsset) (p : TPair)
    (h1 : p.baseBuying.code = "XLM") (h2 : p.baseBuying.issuer = none)
    (hfind : assets.find? (fun a => a.code == p.counterSelling.code &&
      a.issuer == p.counterSelling.issuer) = none) :
    resolveAsset assets p = Except.error "TypeError: Cannot set property of undefined" := by
  rw [resolveAsset, hfind]
  rw [if_pos]
  simp [h1, h2]

/-- Helper: a native counter leg (base not native) with a missing base
asset throws. -/
theorem resolveAsset_error_counter_native (assets : List TAsset) (p : TPair)
    (h0 : ¬(p.baseBuying.code = "XLM" ∧ p.baseBuying.issuer = none))
    (h1 : p.counterSelling.code = "XLM") (h2 : p.counterSelling.issuer = none)
    (hfind : assets.find? (fun a => a.code == p.baseBuying.code &&
      a.issuer == p.baseBuying.issuer) = none) :
    resolveAsset assets p = Except.error "TypeError: Cannot set property of undefined" := by
  have hb : (p.baseBuying.code == "XLM" && p.baseBuying.issuer == none) = false := by
    by_cases hc : p.baseBuying.code = "XLM"
    · rcases hiss : p.baseBuying.issuer with _ | s
      · exact absurd ⟨hc, hiss⟩ h0
      · simp [hc, hiss]
    · simp [hc]
  rw [resolveAsset, hfind, hb]
  rw [if_neg (by simp)]
  rw [if_pos]
  simp [h1, h2]

/-- C10: phase 3 dereferences the `_.find` lookup result without a null
guard, so any directory pair with a native leg whose other leg has no
matching entry in `ticker.assets` throws a `TypeError`, which rejects
the whole phase-3 batch and fails the entire run — the pair is not
skipped. -/
theorem C10_missing_asset_fails_run :
    (∀ (assets : List TAsset) (pairs : List TPair) (p : TPair), p ∈ pairs →
        p.baseBuying.code = "XLM" → p.baseBuying.issuer = none →
        assets.find? (fun a => a.code == p.counterSelling.code &&
          a.issuer == p.counterSelling.issuer) = none →
        phase3Resolve assets pairs ≠ Except.ok ()) ∧
    (∀ (assets : List TAsset) (pairs : List TPair) (p : TPair), p ∈ pairs →
        ¬(p.baseBuying.code = "XLM" ∧ p.baseBuying.issuer = none) →
        p.counterSelling.code = "XLM" → p.counterSelling.issuer = none →
        assets.find? (fun a => a.code == p.baseBuying.code &&
          a.issuer == p.baseBuying.issuer) = none →
        phase3Resolve assets pairs ≠ Except.ok ()) ∧
    (∀ (assets : List TAsset) (pairs : List TPair) (e : String) (toJson : Unit → String),
        phase3Resolve assets pairs = Except.error e →
        tickerDataGenerator (fun u => Except.ok u) (fun u => Except.ok u)
          (fun _ => (phase3Resolve assets pairs).map (fun _ => ()))
          (fun u => Except.ok u) toJson () = Except.error e) := by
  refine ⟨?_, ?_, ?_⟩
  · intro assets pairs p hp h1 h2 hfind
    obtain ⟨e', he'⟩ := phase3Resolve_error_of_mem assets pairs p hp _
      (resolveAsset_error_base_native assets p h1 h2 hfind)
    rw [he']
    intro hcon
    cases hcon
  · intro assets pairs p hp h0 h1 h2 hfind
    obtain ⟨e', he'⟩ := phase3Resolve_error_of_mem assets pairs p hp _
      (resolveAsset_error_counter_native assets p h0 h1 h2 hfind)
    rw [he']
    intro hcon
    cases hcon
  · intro assets pairs e toJson h
    rw [tickerDataGenerator]
    rw [h]
    rfl

/-- C10 witness: a pair XLM/FOO whose counter asset is absent from the
asset list makes the phase-3 batch fail. -/
theorem C10_missing_asset_fails_run_witness :
    phase3Resolve [⟨"XLM", none⟩]
      [⟨⟨"XLM", none⟩, ⟨"FOO", some "GABC"⟩⟩] ≠ Except.ok () := by
  exact C10_missing_asset_fails_run.1 [⟨"XLM", none⟩]
    [⟨⟨"XLM", none⟩, ⟨"FOO", some "GABC"⟩⟩] ⟨⟨"XLM", none⟩, ⟨"FOO", some "GABC"⟩⟩
    (by simp) rfl rfl (by rfl)

/-- An entry of `ticker.assets` as phase 4 reads it.  `price_XLM` is
`none` when phase 3 never populated it (empty order book or no
native-leg pair); the remaining metric fields are only read on the
populated branch.  `activityScore` is the field phase 4 writes. -/
structure PAsset where
  id : String
  price_XLM : Option ℚ
  numBids : ℕ
  numAsks : ℕ
  numTradeRecords24h : ℕ
  volume24h_USD : ℚ
  depth10_USD : ℚ
  numTrades24h : ℕ
  spread : ℚ
  activityScore : ℝ

/-- The score formula of phase 4 (ticker.js lines 337-380) for a
populated non-native asset, over the reals (`Math.log` is the natural
logarithm; `Math.log x / Math.log 2` is log base 2). -/
noncomputable def rawActivityScore (a : PAsset) : ℝ :=
  let numOffersScore := ((a.numBids : ℝ) + (a.numAsks : ℝ)) / 20
  let constantActivityBonus := min 12 (a.numTradeRecords24h : ℝ) / 24
  let nonzeroVolumeBonus := min 1 ((a.volume24h_USD : ℝ) / 100)
  let bonuses := numOffersScore + constantActivityBonus + nonzeroVolumeBonus
  let depth10Score := 0.5 * (Real.log (2 + (a.depth10_USD : ℝ)) / Real.log 2 - 1) +
    min 10 ((a.depth10_USD : ℝ) / 10000)
  let volumeScore := Real.log (4 + (a.volume24h_USD : ℝ)) / Real.log 4 - 1
  let numTradesScore := Real.log (4 + (a.numTrades24h : ℝ)) / Real.log 4 - 1 +
    min 7 ((a.numTradeRecords24h : ℝ) / 8)
  let spreadPenalty := (1 - (a.spread : ℝ)) ^ 3
  spreadPenalty * (bonuses + depth10Score + volumeScore + numTradesScore)

/-- The score assignment of phase 4 (ticker.js lines 323-332): the
native asset gets exactly 100, an asset whose `price_XLM` is undefined
gets exactly 0, every other asset gets the formula score. -/
noncomputable def assignActivityScore (a : PAsset) : PAsset :=
  if a.id = "XLM-native" then { a with activityScore := 100 }
  else if a.price_XLM = none then { a with activityScore := 0 }
  else { a with activityScore := rawActivityScore a }

/-- Stable insertion into a descending-by-score list: the element goes
after every element with a score ≥ its own, exactly the order produced
by the (stable) JS sort with comparator `(a, b) => b.activityScore -
a.activityScore`. -/
noncomputable def insertDescByScore (a : PAsset) : List PAsset → List PAsset
  | [] => [a]
  | b :: t =>
    if b.activityScore < a.activityScore then a :: b :: t
    else b :: insertDescByScore a t

/-- The descending stable sort of ticker.js lines 392-394. -/
noncomputable def sortDescByScore (l : List PAsset) : List PAsset :=
  l.foldl (fun acc a => insertDescByScore a acc) []

/-- Lodash rounding (via `Math.round`) over the reals. -/
noncomputable def jsRoundR (p : ℕ) (x : ℝ) : ℝ := ((⌊x * 10 ^ p + 1 / 2⌋ : ℤ) : ℝ) / 10 ^ p

/-- Phase 4 (ticker.js lines 320-400): assign scores, sort descending
by score, then round each score to 3 decimals. -/
noncomputable def phase4 (assets : List PAsset) : List PAsset :=
  (sortDescByScore (assets.map assignActivityScore)).map
    (fun a => { a with activityScore := jsRoundR 3 a.activityScore })

/-- Helper: the native asset's assigned score is exactly 100. -/
theorem assignActivityScore_native (a : PAsset) (h : a.id = "XLM-native") :
    (assignActivityScore a).activityScore = 100 := by
  rw [assignActivityScore, if_pos h]

/-- Helper: an asset with unpopulated price gets score exactly 0. -/
theorem assignActivityScore_unpopulated (a : PAsset) (h1 : a.id ≠ "XLM-native")
    (h2 : a.price_XLM = none) : (assignActivityScore a).activityScore = 0 := by
  rw [assignActivityScore, if_neg h1, if_pos h2]

/-- Helper: score assignment does not change the id. -/
theorem assignActivityScore_id (a : PAsset) : (assignActivityScore a).id = a.id := by
  rw [assignActivityScore]
  split
  · rfl
  · split <;> rfl

/-- Helper: inserting elements whose scores never exceed the head's
keeps the head in front. -/
theorem foldl_insertDesc_head (n : PAsset) :
    ∀ (l acc : List PAsset), (∀ b ∈ l, b.activityScore ≤ n.activityScore) →
      List.foldl (fun acc a => insertDescByScore a acc) (n :: acc) l =
        n :: List.foldl (fun acc a => insertDescByScore a acc) acc l := by
  intro l
  induction l with
  | nil => intro acc _; rfl
  | cons x xs ih =>
    intro acc h
    have hx : x.activityScore ≤ n.activityScore := h x (by simp)
    show List.foldl _ (insertDescByScore x (n :: acc)) xs =
      n :: List.foldl _ (insertDescByScore x acc) xs
    rw [insertDescByScore, if_neg (not_lt.mpr hx)]
    exact ih (insertDescByScore x acc) (fun b hb => h b (by simp [hb]))

/-- C1 (amended): phase 4 gives the native asset a score of exactly 100
and every asset with unpopulated `price_XLM` a score of exactly 0, and
the native asset (listed first by phase 2) stays first after the sort
whenever no other asset scores above 100 — the formula score is
unbounded (depth, volume and offer-count terms grow without limit), so
"first regardless of every other asset's metrics" holds only under
that bound. -/
theorem C1_native_score_and_ranking :
    (∀ a : PAsset, a.id = "XLM-native" → (assignActivityScore a).activityScore = 100) ∧
    (∀ a : PAsset, a.id ≠ "XLM-native" → a.price_XLM = none →
        (assignActivityScore a).activityScore = 0) ∧
    (∀ (native : PAsset) (rest : List PAsset), native.id = "XLM-native" →
        (∀ b ∈ rest, (assignActivityScore b).activityScore ≤ 100) →
        ((phase4 (native :: rest)).map PAsset.id).head? = some "XLM-native") := by
  refine ⟨assignActivityScore_native, assignActivityScore_unpopulated, ?_⟩
  intro native rest hid hb
  rw [phase4, sortDescByScore]
  rw [List.map_cons, List.foldl_cons]
  rw [show insertDescByScore (assignActivityScore native) [] =
    [assignActivityScore native] from rfl]
  rw [foldl_insertDesc_head (assignActivityScore native) (rest.map assignActivityScore) []
    (by
      intro b hbmem
      rw [assignActivityScore_native native hid]
      obtain ⟨c, hc, rfl⟩ := List.mem_map.mp hbmem
      exact hb c hc)]
  rw [List.map_cons, List.map_cons, List.head?_cons]
  rw [show ({ assignActivityScore native with
      activityScore := jsRoundR 3 (assignActivityScore native).activityScore } : PAsset).id =
    (assignActivityScore native).id from rfl]
  rw [assignActivityScore_id, hid]

/-- The native-asset entry as phase 2 synthesizes it (score not yet
assigned). -/
def nativeAsset0 : PAsset := ⟨"XLM-native", some 1, 0, 0, 0, 0, 0, 0, 0, 0⟩

/-- A populated asset with 2000 bids and 2000 asks, zero spread and all
other metrics zero: its formula score is (2000+2000)/20 = 200. -/
def whaleAsset : PAsset := ⟨"WHALE-token", some 1, 2000, 2000, 0, 0, 0, 0, 0, 0⟩

/-- Helper: the whale asset's formula score evaluates to exactly 200
(all logarithmic terms vanish at zero inputs). -/
theorem rawActivityScore_whale : rawActivityScore whaleAsset = 200 := by
  have h2 : Real.log 2 ≠ 0 := ne_of_gt (Real.log_pos one_lt_two)
  have h4 : Real.log 4 ≠ 0 := ne_of_gt (Real.log_pos (by norm_num))
  rw [rawActivityScore, whaleAsset]
  norm_num [div_self h2, div_self h4]

/-- C1 counterexample: the activity score is not capped — an asset with
2000 bids and 2000 asks (and nothing else) scores 200, so after the
descending sort it precedes the native asset: the native asset does
not appear first "regardless of every other asset's metrics". -/
theorem C1_counterexample_native_not_first :
    (phase4 [nativeAsset0, whaleAsset]).map PAsset.id = ["WHALE-token", "XLM-native"] := by
  have hn : assignActivityScore nativeAsset0 =
      { nativeAsset0 with activityScore := 100 } := by
    rw [assignActivityScore, if_pos (show nativeAsset0.id = "XLM-native" from rfl)]
  have hw : assignActivityScore whaleAsset = { whaleAsset with activityScore := 200 } := by
    rw [assignActivityScore,
      if_neg (by rw [show whaleAsset.id = "WHALE-token" from rfl]; simp),
      if_neg (by rw [show whaleAsset.price_XLM = some 1 from rfl]; simp),
      rawActivityScore_whale]
  rw [phase4, sortDescByScore]
  rw [List.map_cons, List.map_cons, List.map_nil, hn, hw]
  rw [List.foldl_cons, List.foldl_cons, List.foldl_nil]
  rw [show insertDescByScore { nativeAsset0 with activityScore := 100 } [] =
    [{ nativeAsset0 with activityScore := 100 }] from rfl]
  rw [insertDescByScore, if_pos (by show (100 : ℝ) < 200; norm_num)]
  rfl

/-- C1 witness: the ranking theorem at a concrete asset list (the
native entry plus one unpopulated asset, whose score is 0 ≤ 100). -/
theorem C1_native_score_and_ranking_witness :
    ((phase4 [nativeAsset0, ⟨"DEAD-coin", none, 5, 5, 3, 7, 9, 2, 0.5, 0⟩]).map
      PAsset.id).head? = some "XLM-native" := by
  apply C1_native_score_and_ranking.2.2 nativeAsset0
    [⟨"DEAD-coin", none, 5, 5, 3, 7, 9, 2, 0.5, 0⟩] rfl
  intro b hb
  simp only [List.mem_singleton] at hb
  subst hb
  rw [assignActivityScore_unpopulated _ (by simp) rfl]
  norm_num
